import Mathlib

/-!
Verification of the caching/prefetching subsystem of the jira-vscode
extension: the Transition Cache (`IssueTransitionStore`), the Project
Status Store (`ProjectStatusStore`) and the Transition Prefetcher
(`ProjectTransitionPrefetcher`), shallowly embedded from the TypeScript
source.  Remote calls (Jira REST) are modelled as oracle inputs; the
single-threaded event-loop concurrency of the stores is modelled as
explicit interleavings of the synchronous critical sections.
-/

set_option maxRecDepth 4096

/-- ASCII lower-casing of one character, as JS `toLowerCase` acts on the
ASCII range (the spec scopes key normalization to ASCII lower-casing). -/
def jsCharToLower (c : Char) : Char := Char.toLower c

/-- JS `String.prototype.toLowerCase` (ASCII scope), acting on the char list. -/
def jsToLower (s : String) : String := ⟨s.data.map jsCharToLower⟩

/-- JS `String.prototype.trim`: strip leading and trailing whitespace. -/
def jsTrim (s : String) : String :=
  ⟨((s.data.dropWhile Char.isWhitespace).reverse.dropWhile Char.isWhitespace).reverse⟩

/-- JS truthiness for an optional string: `undefined` and `""` are falsy;
`strTruthy s` is `some`, carrying the string, exactly when `s` is a
present, non-empty string. -/
def strTruthy : Option String → Option String
  | none => none
  | some s => if s = "" then none else some s

/-- Association-list model of a JS `Map<string, v>`: lookup finds the most
recent `set` for the key. -/
def mapGet {α : Type} : List (String × α) → String → Option α
  | [], _ => none
  | (k', v) :: rest, k => if k = k' then some v else mapGet rest k

/-- `Map.set`: the new binding shadows any older binding for the key. -/
def mapSet {α : Type} (m : List (String × α)) (k : String) (v : α) : List (String × α) :=
  (k, v) :: m

/-- `Map.delete`: removes every binding for the key. -/
def mapDelete {α : Type} (m : List (String × α)) (k : String) : List (String × α) :=
  m.filter (fun p => p.1 ≠ k)

/-- `types.ts` `IssueStatusCategory`. -/
inductive IssueStatusCategory : Type
  | done
  | inProgress
  | «open»
  | dflt
deriving DecidableEq

/-- `types.ts` `IssueStatusOption = {id, name, category?}`. -/
structure IssueStatusOption : Type where
  id : String
  name : String
  category : Option IssueStatusCategory
deriving DecidableEq

/-- `types.ts` `ProjectIssueTypeStatuses`. -/
structure ProjectIssueTypeStatuses : Type where
  issueTypeId : Option String
  issueTypeName : Option String
  statuses : List IssueStatusOption
deriving DecidableEq

/-- `types.ts` `ProjectStatusesResponse`. -/
structure ProjectStatusesResponse : Type where
  allStatuses : List IssueStatusOption
  issueTypeStatuses : List ProjectIssueTypeStatuses
deriving DecidableEq

/-- `types.ts` `JiraServerLabel`. -/
inductive JiraServerLabel : Type
  | cloud
  | custom
deriving DecidableEq

/-- `types.ts` `JiraAuthInfo` (fields used by the cache subsystem). -/
structure JiraAuthInfo : Type where
  baseUrl : String
  username : String
  displayName : Option String
  accountId : Option String
  serverLabel : JiraServerLabel
deriving DecidableEq

/-- `types.ts` `JiraIssue` (fields consumed by the prefetcher). -/
structure JiraIssue : Type where
  id : String
  key : String
  summary : String
  statusName : String
  issueTypeId : Option String
  issueTypeName : Option String
  url : String
  updated : String
deriving DecidableEq

namespace IssueTransitionStore

/-- `issueTransitionStore.ts` `TransitionKeyParts`. -/
structure TransitionKeyParts : Type where
  projectKey : Option String
  issueTypeId : Option String
  statusName : Option String
deriving DecidableEq

/-- The private `cache : Map<string, IssueStatusOption[]>` of
`IssueTransitionStore`. -/
abbrev Cache : Type := List (String × List IssueStatusOption)

/-- `IssueTransitionStore.buildKey`: trims the three parts, rejects the key
when any part is missing or trims to empty, and otherwise joins the
lower-cased parts with the `::` delimiter. -/
def buildKey (parts : TransitionKeyParts) : Option String :=
  match strTruthy (parts.projectKey.map jsTrim),
        strTruthy (parts.issueTypeId.map jsTrim),
        strTruthy (parts.statusName.map jsTrim) with
  | some projectKey, some issueTypeId, some statusName =>
      some (jsToLower projectKey ++ "::" ++ jsToLower issueTypeId ++ "::" ++ jsToLower statusName)
  | _, _, _ => none

/-- `IssueTransitionStore.get`. -/
def get (cache : Cache) (parts : TransitionKeyParts) : Option (List IssueStatusOption) :=
  match buildKey parts with
  | none => none
  | some key => mapGet cache key

/-- `IssueTransitionStore.remember`: no-op when the key is malformed or the
transition list is missing or empty, otherwise `cache.set`. -/
def remember (cache : Cache) (parts : TransitionKeyParts)
    (transitions : Option (List IssueStatusOption)) : Cache :=
  match buildKey parts, transitions with
  | some key, some ts => if ts.length = 0 then cache else mapSet cache key ts
  | _, _ => cache

/-- `IssueTransitionStore.clear`. -/
def clear (_cache : Cache) : Cache := []

end IssueTransitionStore

namespace ProjectStatusStore

/-- `projectStatusStore.ts` `CachedProjectStatuses`. -/
structure CachedProjectStatuses : Type where
  allStatuses : List IssueStatusOption
  issueTypeStatuses : List ProjectIssueTypeStatuses
deriving DecidableEq

/-- The criteria record taken by `getIssueTypeStatuses`. -/
structure IssueTypeCriteria : Type where
  issueTypeId : Option String
  issueTypeName : Option String
deriving DecidableEq

/-- The mutable fields of `ProjectStatusStore`: the per-project cache, the
in-flight (`pending`) map — its promises modelled by ticket numbers — and
the issue-type-keyed cache. -/
structure StoreState : Type where
  cache : List (String × CachedProjectStatuses)
  pending : List (String × Nat)
  issueTypeCache : List (String × List IssueStatusOption)
deriving DecidableEq

/-- `projectStatusStore.ts` module-level `normalizeIdentifier`: trim,
lower-case, and reject empty. -/
def normalizeIdentifier (value : Option String) : Option String :=
  strTruthy (value.map (fun s => jsToLower (jsTrim s)))

/-- `ProjectStatusStore.normalizeKey`: trim the project key and reject
empty (no lower-casing here; the project cache key is case-sensitive). -/
def normalizeKey (projectKey : Option String) : Option String :=
  strTruthy (projectKey.map jsTrim)

/-- `ProjectStatusStore.buildIssueTypeCacheKey`. -/
def buildIssueTypeCacheKey (projectKey identifier : String) : String :=
  projectKey ++ "::" ++ identifier

/-- The `[normalizeIdentifier(id), normalizeIdentifier(name)].filter(Boolean)`
pattern shared by `getIssueTypeStatuses` and `primeIssueTypeCache`. -/
def groupIdentifiers (issueTypeId issueTypeName : Option String) : List String :=
  [normalizeIdentifier issueTypeId, normalizeIdentifier issueTypeName].filterMap id

/-- `ProjectStatusStore.getCacheEntry`. -/
def getCacheEntry (st : StoreState) (projectKey : Option String) :
    Option CachedProjectStatuses :=
  match normalizeKey projectKey with
  | none => none
  | some key => mapGet st.cache key

/-- `ProjectStatusStore.get`. -/
def get (st : StoreState) (projectKey : Option String) : Option (List IssueStatusOption) :=
  (getCacheEntry st projectKey).map (fun entry => entry.allStatuses)

/-- `ProjectStatusStore.getIssueTypeStatuses`: id tried before name, first
cache hit returned. -/
def getIssueTypeStatuses (st : StoreState) (projectKey : Option String)
    (criteria : Option IssueTypeCriteria) : Option (List IssueStatusOption) :=
  match normalizeKey projectKey, criteria with
  | some normalizedProjectKey, some c =>
      let cacheKeyBase := jsToLower normalizedProjectKey
      let identifiers := groupIdentifiers c.issueTypeId c.issueTypeName
      identifiers.findSome?
        (fun identifier => mapGet st.issueTypeCache (buildIssueTypeCacheKey cacheKeyBase identifier))
  | _, _ => none

/-- One iteration of the inner loop of `ProjectStatusStore.primeIssueTypeCache`:
register `statuses` under `cacheKey` only if the slot is not yet populated. -/
def primeIdentifier (itc : List (String × List IssueStatusOption)) (cacheKey : String)
    (statuses : List IssueStatusOption) : List (String × List IssueStatusOption) :=
  if (mapGet itc cacheKey).isSome then itc else mapSet itc cacheKey statuses

/-- The body of `primeIssueTypeCache` for one issue-type group. -/
def primeGroup (itc : List (String × List IssueStatusOption)) (normalizedProjectKey : String)
    (group : ProjectIssueTypeStatuses) : List (String × List IssueStatusOption) :=
  (groupIdentifiers group.issueTypeId group.issueTypeName).foldl
    (fun acc identifier =>
      primeIdentifier acc (buildIssueTypeCacheKey normalizedProjectKey identifier) group.statuses)
    itc

/-- `ProjectStatusStore.primeIssueTypeCache`. -/
def primeIssueTypeCache (itc : List (String × List IssueStatusOption)) (projectKey : String)
    (groups : List ProjectIssueTypeStatuses) : List (String × List IssueStatusOption) :=
  groups.foldl (fun acc group => primeGroup acc (jsToLower projectKey) group) itc

/-- `projectStatusStore.ts` `sanitizeIssueTypeGroups`. -/
def sanitizeIssueTypeGroups (groups : List ProjectIssueTypeStatuses) :
    List ProjectIssueTypeStatuses :=
  groups.map (fun group =>
    { issueTypeId := group.issueTypeId
      issueTypeName := group.issueTypeName
      statuses := group.statuses })

/-- `projectStatusStore.ts` `buildCacheEntry`. -/
def buildCacheEntry (response : Option ProjectStatusesResponse) : CachedProjectStatuses :=
  { allStatuses := (response.map (fun r => r.allStatuses)).getD []
    issueTypeStatuses := sanitizeIssueTypeGroups ((response.map (fun r => r.issueTypeStatuses)).getD []) }

instance {ε α : Type} [DecidableEq ε] [DecidableEq α] : DecidableEq (Except ε α)
  | Except.error e, Except.error e' =>
      decidable_of_iff (e = e') (by rw [Except.error.injEq])
  | Except.error _, Except.ok _ => isFalse (fun h => Except.noConfusion h)
  | Except.ok _, Except.error _ => isFalse (fun h => Except.noConfusion h)
  | Except.ok a, Except.ok b =>
      decidable_of_iff (a = b) (by rw [Except.ok.injEq])

/-- The oracle feeding one run of `fetchAndCache`: the auth manager's
answers and the outcome of the remote `fetchProjectStatuses` call
(`Except.error` models a rejected promise). -/
structure FetchEnv : Type where
  authInfo : Option JiraAuthInfo
  token : Option String
  remote : Except String ProjectStatusesResponse
deriving DecidableEq

/-- `ProjectStatusStore.fetchAndCache`: resolves to no data when auth info
or token is missing; on remote success builds the entry, writes the
project cache and primes the issue-type cache; a remote failure
propagates as a rejection and writes nothing. -/
def fetchAndCache (env : FetchEnv) (key : String) (st : StoreState) :
    StoreState × Except String (Option CachedProjectStatuses) :=
  match env.authInfo, strTruthy env.token with
  | some _, some _ =>
      match env.remote with
      | Except.error e => (st, Except.error e)
      | Except.ok response =>
          let entry := buildCacheEntry (some response)
          ({ st with
              cache := mapSet st.cache key entry
              issueTypeCache := primeIssueTypeCache st.issueTypeCache key entry.issueTypeStatuses },
            Except.ok (some entry))
  | _, _ => (st, Except.ok none)

/-- One full run of `ProjectStatusStore.loadStatuses` for a fresh call
(no in-flight promise joined): the promise is registered in `pending`
under `ticket`, `fetchAndCache` runs, and the settle continuations
(`then`/`catch`) delete the pending marker before the result propagates. -/
def loadStatusesRun (env : FetchEnv) (key : String) (ticket : Nat) (st : StoreState) :
    StoreState × Except String (Option CachedProjectStatuses) :=
  let started : StoreState := { st with pending := mapSet st.pending key ticket }
  let stepped := fetchAndCache env key started
  ({ stepped.1 with pending := mapDelete stepped.1.pending key }, stepped.2)

/-- `ProjectStatusStore.clear`. -/
def clear (_st : StoreState) : StoreState :=
  { cache := [], pending := [], issueTypeCache := [] }

end ProjectStatusStore

namespace ProjectTransitionPrefetcher

/-- `projectTransitionPrefetcher.ts` `PrefetchKey`. -/
structure PrefetchKey : Type where
  projectKey : String
  issueTypeIdentifier : String
  statusName : String
deriving DecidableEq

/-- `ProjectTransitionPrefetcher.buildPrefetchKey`. -/
def buildPrefetchKey (parts : PrefetchKey) : String :=
  jsToLower parts.projectKey ++ "::" ++ jsToLower parts.issueTypeIdentifier ++ "::" ++
    jsToLower parts.statusName

/-- `ProjectTransitionPrefetcher.normalizeProjectKey`: trim, reject empty,
lower-case. -/
def normalizeProjectKey (projectKey : Option String) : Option String :=
  (strTruthy (projectKey.map jsTrim)).map jsToLower

/-- The mutable fields of the prefetcher touched by `prefetchStatus`: the
`prefetchedKeys` dedupe set and the shared transition store. -/
structure WarmupState : Type where
  prefetchedKeys : List String
  transitionStore : IssueTransitionStore.Cache
deriving DecidableEq

/-- The oracle feeding one run of `prefetchStatus`: the outcome of
`findRepresentativeIssue` (`none` covers both a failed search and an empty
result page, exactly as the source catches errors and takes `matches[0]`)
and the outcome of `fetchIssueTransitions` (`Except.error` models a
rejected promise). -/
structure StatusOracle : Type where
  representativeIssue : Option JiraIssue
  transitionsResult : Except Unit (List IssueStatusOption)
deriving DecidableEq

/-- The tail of `ProjectTransitionPrefetcher.prefetchStatus` after the
dedupe-set and cache checks: search for a representative issue and, when
found, fetch its transitions; a non-empty result is remembered under the
representative issue's status name and the triple key is marked attempted.
The boolean reports that the representative-issue search was issued. -/
def prefetchStatusSearch (oracle : StatusOracle) (projectKey issueTypeIdentifier : String)
    (cacheKey : String) (s : WarmupState) : WarmupState × Bool :=
  match oracle.representativeIssue with
  | none => (s, true)
  | some representativeIssue =>
      match oracle.transitionsResult with
      | Except.error _ => (s, true)
      | Except.ok transitions =>
          if 0 < transitions.length then
            ({ prefetchedKeys := cacheKey :: s.prefetchedKeys
               transitionStore :=
                 IssueTransitionStore.remember s.transitionStore
                   { projectKey := some projectKey
                     issueTypeId := some issueTypeIdentifier
                     statusName := some representativeIssue.statusName }
                   (some transitions) }, true)
          else (s, true)

/-- `ProjectTransitionPrefetcher.prefetchStatus`: skip silently on a blank
status name, on a triple already in the dedupe set, and (after marking the
triple attempted) on a non-empty existing cache entry; otherwise fall
through to the representative-issue search.  The boolean reports whether
the search was issued. -/
def prefetchStatus (oracle : StatusOracle) (projectKey issueTypeIdentifier : String)
    (status : Option IssueStatusOption) (s : WarmupState) : WarmupState × Bool :=
  match strTruthy (status.map (fun st => jsTrim st.name)) with
  | none => (s, false)
  | some statusName =>
      let cacheKey :=
        buildPrefetchKey
          { projectKey := projectKey, issueTypeIdentifier := issueTypeIdentifier
            statusName := statusName }
      if cacheKey ∈ s.prefetchedKeys then (s, false)
      else
        match IssueTransitionStore.get s.transitionStore
            { projectKey := some projectKey
              issueTypeId := some issueTypeIdentifier
              statusName := some statusName } with
        | some existing =>
            if 0 < existing.length then
              ({ s with prefetchedKeys := cacheKey :: s.prefetchedKeys }, false)
            else prefetchStatusSearch oracle projectKey issueTypeIdentifier cacheKey s
        | none => prefetchStatusSearch oracle projectKey issueTypeIdentifier cacheKey s

/-- The bookkeeping of `ProjectTransitionPrefetcher.prefetch`: the keys of
the `pendingProjects` map and a counter of started background walks. -/
structure PrefetchTracking : Type where
  pendingProjects : List String
  walkCount : Nat
deriving DecidableEq

/-- `ProjectTransitionPrefetcher.prefetch`: no-op on a blank project key or
when a task for the normalized key is already tracked; otherwise a fresh
background walk starts and is tracked under the normalized key. -/
def prefetch (projectKey : Option String) (s : PrefetchTracking) : PrefetchTracking :=
  match normalizeProjectKey projectKey with
  | none => s
  | some normalized =>
      if normalized ∈ s.pendingProjects then s
      else { pendingProjects := normalized :: s.pendingProjects, walkCount := s.walkCount + 1 }

/-- The `finally` continuation of the task started by `prefetch`: the
tracking entry for the normalized key is deleted when the walk completes,
whether it succeeded or failed. -/
def prefetchTaskComplete (normalized : String) (s : PrefetchTracking) : PrefetchTracking :=
  { s with pendingProjects := s.pendingProjects.filter (fun k => k ≠ normalized) }

end ProjectTransitionPrefetcher

namespace IssueTransitionStore

/-- A mutating operation on the Transition Cache. -/
inductive CacheOp : Type
  | rememberOp (parts : TransitionKeyParts) (transitions : Option (List IssueStatusOption))
  | clearOp
deriving DecidableEq

/-- Apply one operation to the cache. -/
def applyOp (cache : Cache) : CacheOp → Cache
  | CacheOp.rememberOp parts transitions => remember cache parts transitions
  | CacheOp.clearOp => clear cache

/-- Apply a sequence of operations to the cache, oldest first. -/
def applyOps (cache : Cache) (ops : List CacheOp) : Cache :=
  ops.foldl applyOp cache

/-- Every value stored in the cache is a non-empty transition list. -/
def StoreNonEmpty (cache : Cache) : Prop :=
  ∀ kv ∈ cache, kv.2 ≠ ([] : List IssueStatusOption)

instance (cache : Cache) : Decidable (StoreNonEmpty cache) := by
  unfold StoreNonEmpty
  infer_instance

end IssueTransitionStore

namespace ProjectStatusStore

/-- What one `ensure`/`ensureAllIssueTypeStatuses` caller observes for a
fixed project key: an immediate cache hit, or the promise (ticket) of a
fetch task — freshly started or joined. -/
inductive EnsureResult : Type
  | cachedHit (entry : CachedProjectStatuses)
  | joined (ticket : Nat)
deriving DecidableEq

/-- Event-loop view of the store for one project key: `cached` is the
project's `cache` entry, `pendingTicket` the `pending` map entry (the
shared in-flight promise, identified by a ticket), `nextTicket` a supply
of fresh promise identities, `fetchCount` the number of `fetchAndCache`
tasks ever started and `liveFetches` the number of started tasks not yet
settled. -/
structure CoalesceState : Type where
  cached : Option CachedProjectStatuses
  pendingTicket : Option Nat
  nextTicket : Nat
  fetchCount : Nat
  liveFetches : Nat
deriving DecidableEq

/-- The synchronous prefix of one `ensure` call (`ensureEntry` plus the
check-then-set section of `loadStatuses`), which runs atomically on the
event loop: a cache hit returns immediately; an in-flight promise is
joined; otherwise a fetch task starts and its promise is registered. -/
def ensureStep (s : CoalesceState) : CoalesceState × EnsureResult :=
  match s.cached with
  | some entry => (s, EnsureResult.cachedHit entry)
  | none =>
      match s.pendingTicket with
      | some ticket => (s, EnsureResult.joined ticket)
      | none =>
          ({ cached := s.cached
             pendingTicket := some s.nextTicket
             nextTicket := s.nextTicket + 1
             fetchCount := s.fetchCount + 1
             liveFetches := s.liveFetches + 1 }, EnsureResult.joined s.nextTicket)

/-- Settlement of the in-flight fetch task: the promise resolves (with an
entry that `fetchAndCache` wrote to the cache, or with no data) or rejects
(`outcome = none`, cache untouched), and the `then`/`catch` continuations
delete the pending marker. -/
def settleStep (outcome : Option CachedProjectStatuses) (s : CoalesceState) : CoalesceState :=
  match s.pendingTicket with
  | none => s
  | some _ =>
      { s with
          pendingTicket := none
          liveFetches := s.liveFetches - 1
          cached :=
            match outcome with
            | some entry => some entry
            | none => s.cached }

/-- An event on the event loop touching this project key. -/
inductive CoalesceEvent : Type
  | ensureCall
  | settle (outcome : Option CachedProjectStatuses)
deriving DecidableEq

/-- Apply one event to the store state. -/
def coalesceStep (s : CoalesceState) : CoalesceEvent → CoalesceState
  | CoalesceEvent.ensureCall => (ensureStep s).1
  | CoalesceEvent.settle outcome => settleStep outcome s

/-- Run `n` concurrent `ensure` calls (their synchronous prefixes
interleave in program order, with no settlement in between) and collect
what each caller observes. -/
def runEnsures : Nat → CoalesceState → CoalesceState × List EnsureResult
  | 0, s => (s, [])
  | n + 1, s =>
      ((runEnsures n (ensureStep s).1).1,
        (ensureStep s).2 :: (runEnsures n (ensureStep s).1).2)

/-- Every state the store passes through along a sequence of events. -/
def statesAlong : List CoalesceEvent → CoalesceState → List CoalesceState
  | [], s => [s]
  | e :: evs, s => s :: statesAlong evs (coalesceStep s e)

/-- Inductive invariant of the coalescing machine: at most one fetch task
is in flight, and none when no promise is registered. -/
def CoalesceInv (s : CoalesceState) : Prop :=
  s.liveFetches ≤ 1 ∧ (s.pendingTicket = none → s.liveFetches = 0)

end ProjectStatusStore

/-! ### Helper lemmas about the Map model -/

theorem mapGet_mapSet_self {α : Type} (m : List (String × α)) (k : String) (v : α) :
    mapGet (mapSet m k v) k = some v := by
  simp [mapGet, mapSet]

theorem mapGet_mapSet_ne {α : Type} (m : List (String × α)) (k k' : String) (v : α)
    (h : k' ≠ k) : mapGet (mapSet m k v) k' = mapGet m k' := by
  simp [mapGet, mapSet, h]

theorem mapGet_mapDelete_self {α : Type} (m : List (String × α)) (k : String) :
    mapGet (mapDelete m k) k = none := by
  induction m with
  | nil => rfl
  | cons p rest ih =>
      by_cases h : p.1 = k
      · simpa [mapDelete, List.filter, h] using ih
      · simpa [mapDelete, List.filter, h, mapGet, Ne.symm h] using ih

theorem mapGet_mem {α : Type} (m : List (String × α)) (k : String) (v : α)
    (h : mapGet m k = some v) : (k, v) ∈ m := by
  induction m with
  | nil => simp [mapGet] at h
  | cons p rest ih =>
      simp only [mapGet] at h
      by_cases hk : k = p.1
      · rw [if_pos hk] at h
        cases h
        cases p
        cases hk
        exact List.mem_cons_self _ _
      · rw [if_neg hk] at h
        exact List.mem_cons_of_mem _ (ih h)

theorem findSome?_const_none {α β : Type} (l : List α) :
    l.findSome? (fun _ => (none : Option β)) = none := by
  induction l with
  | nil => rfl
  | cons a rest ih => simp [List.findSome?, ih]

/-! ### C1: Transition Cache write semantics -/

/-- Claim C1 as stated is false at a concrete input: after
`remember(key, A)` followed by `remember(key, B)` with both lists
non-empty, `get(key)` returns `B`, not `A` — `remember` overwrites
unconditionally, so the first non-empty write does not win. -/
theorem C1_counterexample :
    ¬ (IssueTransitionStore.get
        (IssueTransitionStore.remember
          (IssueTransitionStore.remember []
            ⟨some "ABC", some "10001", some "To Do"⟩
            (some [⟨"11", "Start Progress", none⟩]))
          ⟨some "ABC", some "10001", some "To Do"⟩
          (some [⟨"21", "Stop Progress", none⟩]))
        ⟨some "ABC", some "10001", some "To Do"⟩ =
        some [⟨"11", "Start Progress", none⟩]) := by decide

/-- Claim C1 (amended): the last non-empty write wins.  For every
well-formed key and non-empty transition lists `A` and `B`, calling
`remember(key, A)` then `remember(key, B)` leaves `get(key) == B`; calling
`remember(key, [])` after `remember(key, A)` leaves the store — and hence
`get(key) == A` — unchanged. -/
theorem C1_last_non_empty_write_wins
    (cache : IssueTransitionStore.Cache) (parts : IssueTransitionStore.TransitionKeyParts)
    (key : String) (A B : List IssueStatusOption)
    (hkey : IssueTransitionStore.buildKey parts = some key)
    (hA : A ≠ []) (hB : B ≠ []) :
    IssueTransitionStore.get
        (IssueTransitionStore.remember (IssueTransitionStore.remember cache parts (some A))
          parts (some B)) parts = some B ∧
      IssueTransitionStore.remember (IssueTransitionStore.remember cache parts (some A))
          parts (some []) =
        IssueTransitionStore.remember cache parts (some A) ∧
      IssueTransitionStore.get (IssueTransitionStore.remember cache parts (some A)) parts =
        some A := by
  have hA0 : A.length ≠ 0 := by simpa [List.length_eq_zero] using hA
  have hB0 : B.length ≠ 0 := by simpa [List.length_eq_zero] using hB
  unfold IssueTransitionStore.get IssueTransitionStore.remember
  rw [hkey]
  simp [hA0, hB0, mapGet_mapSet_self]

/-- Witness for `C1_last_non_empty_write_wins` at a concrete key and
concrete transition lists. -/
theorem C1_last_non_empty_write_wins_witness :
    IssueTransitionStore.get
        (IssueTransitionStore.remember
          (IssueTransitionStore.remember []
            ⟨some "ABC", some "10001", some "To Do"⟩
            (some [⟨"11", "Start Progress", none⟩]))
          ⟨some "ABC", some "10001", some "To Do"⟩
          (some [⟨"21", "Stop Progress", none⟩]))
        ⟨some "ABC", some "10001", some "To Do"⟩ =
      some [⟨"21", "Stop Progress", none⟩] :=
  (C1_last_non_empty_write_wins [] ⟨some "ABC", some "10001", some "To Do"⟩
    "abc::10001::to do" [⟨"11", "Start Progress", none⟩] [⟨"21", "Stop Progress", none⟩]
    (by decide) (by decide) (by decide)).1

/-! ### C5: case-insensitive key matching -/

/-- Claim C5: Transition Cache keys are matched case-insensitively after
trimming.  For non-empty key parts and a non-empty list `L`, after
`remember(parts, L)` a `get` whose parts agree with the originals up to
letter case and leading/trailing whitespace returns `L`; and key
construction trims and lower-cases all three parts and joins them with the
fixed `::` delimiter. -/
theorem C5_case_insensitive_keys
    (cache : IssueTransitionStore.Cache) (p i s p' i' s' : String)
    (L : List IssueStatusOption)
    (hp : jsTrim p ≠ "") (hi : jsTrim i ≠ "") (hs : jsTrim s ≠ "")
    (hp' : jsTrim p' ≠ "") (hi' : jsTrim i' ≠ "") (hs' : jsTrim s' ≠ "")
    (hpe : jsToLower (jsTrim p') = jsToLower (jsTrim p))
    (hie : jsToLower (jsTrim i') = jsToLower (jsTrim i))
    (hse : jsToLower (jsTrim s') = jsToLower (jsTrim s))
    (hL : L ≠ []) :
    IssueTransitionStore.get
        (IssueTransitionStore.remember cache ⟨some p, some i, some s⟩ (some L))
        ⟨some p', some i', some s'⟩ = some L ∧
      IssueTransitionStore.buildKey ⟨some p, some i, some s⟩ =
        some (jsToLower (jsTrim p) ++ "::" ++ jsToLower (jsTrim i) ++ "::" ++
          jsToLower (jsTrim s)) := by
  have hL0 : L.length ≠ 0 := by simpa [List.length_eq_zero] using hL
  have hbk : IssueTransitionStore.buildKey ⟨some p, some i, some s⟩ =
      some (jsToLower (jsTrim p) ++ "::" ++ jsToLower (jsTrim i) ++ "::" ++
        jsToLower (jsTrim s)) := by
    unfold IssueTransitionStore.buildKey
    simp [strTruthy, hp, hi, hs]
  have hbk' : IssueTransitionStore.buildKey ⟨some p', some i', some s'⟩ =
      some (jsToLower (jsTrim p) ++ "::" ++ jsToLower (jsTrim i) ++ "::" ++
        jsToLower (jsTrim s)) := by
    unfold IssueTransitionStore.buildKey
    simp [strTruthy, hp', hi', hs', hpe, hie, hse]
  refine ⟨?_, hbk⟩
  unfold IssueTransitionStore.get IssueTransitionStore.remember
  rw [hbk, hbk']
  simp [hL0, mapGet_mapSet_self]

/-- Witness for `C5_case_insensitive_keys`: the Scenario-B key, stored with
`statusName "To Do"` and read back with `" TO DO "`. -/
theorem C5_case_insensitive_keys_witness :
    IssueTransitionStore.get
        (IssueTransitionStore.remember []
          ⟨some "ABC", some "10001", some "To Do"⟩
          (some [⟨"11", "Start Progress", none⟩]))
        ⟨some "abc", some "10001", some " TO DO "⟩ =
      some [⟨"11", "Start Progress", none⟩] :=
  (C5_case_insensitive_keys [] "ABC" "10001" "To Do" "abc" "10001" " TO DO "
    [⟨"11", "Start Progress", none⟩]
    (by decide) (by decide) (by decide) (by decide) (by decide) (by decide)
    (by decide) (by decide) (by decide) (by decide)).1

/-! ### C8: invalidation on logout/login -/

/-- Claim C8: after `clear()` on the Project Status Store and `clear()` on
the Transition Cache, `get(projectKey)` on the status store (and the
issue-type-keyed read) and `get(key)` on the transition cache return
nothing for every key, previously-cached keys included. -/
theorem C8_clear_invalidation
    (st : ProjectStatusStore.StoreState) (projectKey : Option String)
    (criteria : Option ProjectStatusStore.IssueTypeCriteria)
    (cache : IssueTransitionStore.Cache)
    (parts : IssueTransitionStore.TransitionKeyParts) :
    ProjectStatusStore.get (ProjectStatusStore.clear st) projectKey = none ∧
      ProjectStatusStore.getIssueTypeStatuses (ProjectStatusStore.clear st) projectKey
          criteria = none ∧
      IssueTransitionStore.get (IssueTransitionStore.clear cache) parts = none := by
  refine ⟨?_, ?_, ?_⟩
  · unfold ProjectStatusStore.get ProjectStatusStore.getCacheEntry ProjectStatusStore.clear
    cases ProjectStatusStore.normalizeKey projectKey <;> simp [mapGet]
  · unfold ProjectStatusStore.getIssueTypeStatuses ProjectStatusStore.clear
    cases ProjectStatusStore.normalizeKey projectKey <;> cases criteria <;>
      simp [mapGet, findSome?_const_none]
  · unfold IssueTransitionStore.get IssueTransitionStore.clear
    cases IssueTransitionStore.buildKey parts <;> simp [mapGet]

/-! ### C9: prefetch idempotence per project -/

/-- Claim C9: for every project key whose normalized form is tracked as a
running prefetch task, `prefetch` is a no-op (no second walk starts);
completion of the running task removes the tracking entry, and a
`prefetch` call after completion starts a fresh walk. -/
theorem C9_prefetch_idempotent
    (projectKey : Option String) (s : ProjectTransitionPrefetcher.PrefetchTracking)
    (normalized : String)
    (hnorm : ProjectTransitionPrefetcher.normalizeProjectKey projectKey = some normalized) :
    (normalized ∈ s.pendingProjects →
        ProjectTransitionPrefetcher.prefetch projectKey s = s) ∧
      normalized ∉
        (ProjectTransitionPrefetcher.prefetchTaskComplete normalized s).pendingProjects ∧
      (ProjectTransitionPrefetcher.prefetch projectKey
          (ProjectTransitionPrefetcher.prefetchTaskComplete normalized s)).walkCount =
        s.walkCount + 1 := by
  refine ⟨?_, ?_, ?_⟩
  · intro hmem
    unfold ProjectTransitionPrefetcher.prefetch
    rw [hnorm]
    simp [hmem]
  · unfold ProjectTransitionPrefetcher.prefetchTaskComplete
    simp [List.mem_filter]
  · have hnot : normalized ∉
        (ProjectTransitionPrefetcher.prefetchTaskComplete normalized s).pendingProjects := by
      unfold ProjectTransitionPrefetcher.prefetchTaskComplete
      simp [List.mem_filter]
    unfold ProjectTransitionPrefetcher.prefetch
    rw [hnorm]
    simp only [if_neg hnot]
    rfl

/-- Witness for `C9_prefetch_idempotent`: project key `" ABC "` with a
running task tracked under `"abc"`. -/
theorem C9_prefetch_idempotent_witness :
    (("abc" : String) ∈
          (ProjectTransitionPrefetcher.PrefetchTracking.mk ["abc"] 1).pendingProjects →
        ProjectTransitionPrefetcher.prefetch (some " ABC ") ⟨["abc"], 1⟩ = ⟨["abc"], 1⟩) ∧
      ("abc" : String) ∉
        (ProjectTransitionPrefetcher.prefetchTaskComplete "abc"
          (ProjectTransitionPrefetcher.PrefetchTracking.mk ["abc"] 1)).pendingProjects ∧
      (ProjectTransitionPrefetcher.prefetch (some " ABC ")
          (ProjectTransitionPrefetcher.prefetchTaskComplete "abc"
            (ProjectTransitionPrefetcher.PrefetchTracking.mk ["abc"] 1))).walkCount = 1 + 1 :=
  C9_prefetch_idempotent (some " ABC ") ⟨["abc"], 1⟩ "abc" (by decide)

/-! ### C10: non-emptiness invariant of the Transition Cache -/

theorem remember_preserves_nonEmpty
    (cache : IssueTransitionStore.Cache) (parts : IssueTransitionStore.TransitionKeyParts)
    (transitions : Option (List IssueStatusOption))
    (h : IssueTransitionStore.StoreNonEmpty cache) :
    IssueTransitionStore.StoreNonEmpty (IssueTransitionStore.remember cache parts transitions) := by
  unfold IssueTransitionStore.remember
  cases IssueTransitionStore.buildKey parts with
  | none => exact h
  | some key =>
      cases transitions with
      | none => exact h
      | some ts =>
          by_cases hts : ts.length = 0
          · simpa [hts] using h
          · simp only [if_neg hts]
            intro kv hkv
            rcases List.mem_cons.mp hkv with rfl | hmem
            · simpa [List.length_eq_zero] using hts
            · exact h kv hmem

/-- Claim C10: every stored value of the Transition Cache is a non-empty
list — `get` returns nothing or a list with at least one element, the
invariant is preserved by every sequence of `remember`/`clear`
operations, and `remember` with a key whose `projectKey`, `issueTypeId`
or `statusName` part is missing or trims to empty leaves the store
completely unchanged. -/
theorem C10_nonEmpty_invariant :
    (∀ (cache : IssueTransitionStore.Cache) (ops : List IssueTransitionStore.CacheOp),
        IssueTransitionStore.StoreNonEmpty cache →
        IssueTransitionStore.StoreNonEmpty (IssueTransitionStore.applyOps cache ops)) ∧
      (∀ (cache : IssueTransitionStore.Cache)
          (parts : IssueTransitionStore.TransitionKeyParts) (l : List IssueStatusOption),
          IssueTransitionStore.StoreNonEmpty cache →
          IssueTransitionStore.get cache parts = some l → l ≠ []) ∧
      (∀ (cache : IssueTransitionStore.Cache)
          (parts : IssueTransitionStore.TransitionKeyParts)
          (transitions : Option (List IssueStatusOption)),
          (strTruthy (parts.projectKey.map jsTrim) = none ∨
            strTruthy (parts.issueTypeId.map jsTrim) = none ∨
            strTruthy (parts.statusName.map jsTrim) = none) →
          IssueTransitionStore.remember cache parts transitions = cache) := by
  refine ⟨?_, ?_, ?_⟩
  · intro cache ops h
    unfold IssueTransitionStore.applyOps
    induction ops generalizing cache with
    | nil => exact h
    | cons op rest ih =>
        simp only [List.foldl_cons]
        apply ih
        cases op with
        | rememberOp parts transitions => exact remember_preserves_nonEmpty _ _ _ h
        | clearOp => intro kv hkv; cases hkv
  · intro cache parts l h hget
    unfold IssueTransitionStore.get at hget
    cases hbk : IssueTransitionStore.buildKey parts with
    | none => rw [hbk] at hget; cases hget
    | some key =>
        rw [hbk] at hget
        exact h (key, l) (mapGet_mem _ _ _ hget)
  · intro cache parts transitions hmal
    have hbk : IssueTransitionStore.buildKey parts = none := by
      unfold IssueTransitionStore.buildKey
      cases hp : strTruthy (parts.projectKey.map jsTrim) <;>
        cases hi2 : strTruthy (parts.issueTypeId.map jsTrim) <;>
        cases hs2 : strTruthy (parts.statusName.map jsTrim) <;>
        simp_all
    unfold IssueTransitionStore.remember
    rw [hbk]

/-- Witness for `C10_nonEmpty_invariant`: a concrete operation sequence
preserves the invariant from the empty store, and a `remember` with a
status name that trims to empty is the identity. -/
theorem C10_nonEmpty_invariant_witness :
    IssueTransitionStore.StoreNonEmpty
        (IssueTransitionStore.applyOps []
          [IssueTransitionStore.CacheOp.rememberOp
              ⟨some "ABC", some "10001", some "To Do"⟩
              (some [⟨"11", "Start Progress", none⟩]),
            IssueTransitionStore.CacheOp.rememberOp
              ⟨some "ABC", some "10001", some "Done"⟩ (some []),
            IssueTransitionStore.CacheOp.clearOp]) ∧
      IssueTransitionStore.remember [("k", [⟨"11", "Start Progress", none⟩])]
          ⟨some "ABC", some "10001", some "  "⟩
          (some [⟨"21", "Stop Progress", none⟩]) =
        [("k", [⟨"11", "Start Progress", none⟩])] :=
  ⟨C10_nonEmpty_invariant.1 [] _ (by decide),
    C10_nonEmpty_invariant.2.2 _ _ _ (Or.inr (Or.inr (by decide)))⟩

/-! ### C7: failure behavior of the Project Status Store fetch -/

/-- Claim C7: with missing authentication info or token, a load resolves to
no data rather than rejecting and writes no cache entry; when the remote
call itself fails, the load rejects with that error, the in-flight marker
for the key is removed (so a subsequent call retries), and no cache entry
is written. -/
theorem C7_fetch_failure_behavior :
    (∀ (env : ProjectStatusStore.FetchEnv) (key : String) (ticket : Nat)
        (st : ProjectStatusStore.StoreState),
        env.authInfo = none ∨ strTruthy env.token = none →
        (ProjectStatusStore.loadStatusesRun env key ticket st).2 = Except.ok none ∧
          (ProjectStatusStore.loadStatusesRun env key ticket st).1.cache = st.cache) ∧
      (∀ (env : ProjectStatusStore.FetchEnv) (key : String) (ticket : Nat)
          (st : ProjectStatusStore.StoreState) (authInfo : JiraAuthInfo) (token : String)
          (e : String),
          env.authInfo = some authInfo → strTruthy env.token = some token →
          env.remote = Except.error e →
          (ProjectStatusStore.loadStatusesRun env key ticket st).2 = Except.error e ∧
            mapGet (ProjectStatusStore.loadStatusesRun env key ticket st).1.pending key =
              none ∧
            (ProjectStatusStore.loadStatusesRun env key ticket st).1.cache = st.cache) := by
  constructor
  · intro env key ticket st hmissing
    unfold ProjectStatusStore.loadStatusesRun ProjectStatusStore.fetchAndCache
    rcases hmissing with h | h <;>
      rw [h] <;>
      cases env.authInfo <;>
      cases strTruthy env.token <;>
      simp_all
  · intro env key ticket st authInfo token e hauth htoken hremote
    unfold ProjectStatusStore.loadStatusesRun ProjectStatusStore.fetchAndCache
    rw [hauth, htoken, hremote]
    exact ⟨rfl, mapGet_mapDelete_self _ _, rfl⟩

/-- Witness for `C7_fetch_failure_behavior`: a concrete remote failure
rejects, clears the pending marker and writes nothing. -/
theorem C7_fetch_failure_behavior_witness :
    (ProjectStatusStore.loadStatusesRun
          ⟨some ⟨"https://x", "u", none, none, JiraServerLabel.cloud⟩, some "tok",
            Except.error "boom"⟩
          "ABC" 0 ⟨[], [], []⟩).2 = Except.error "boom" ∧
      mapGet
          (ProjectStatusStore.loadStatusesRun
            ⟨some ⟨"https://x", "u", none, none, JiraServerLabel.cloud⟩, some "tok",
              Except.error "boom"⟩
            "ABC" 0 ⟨[], [], []⟩).1.pending "ABC" = none ∧
      (ProjectStatusStore.loadStatusesRun
          ⟨some ⟨"https://x", "u", none, none, JiraServerLabel.cloud⟩, some "tok",
            Except.error "boom"⟩
          "ABC" 0 ⟨[], [], []⟩).1.cache = ([] : List (String × ProjectStatusStore.CachedProjectStatuses)) :=
  C7_fetch_failure_behavior.2
    ⟨some ⟨"https://x", "u", none, none, JiraServerLabel.cloud⟩, some "tok",
      Except.error "boom"⟩
    "ABC" 0 ⟨[], [], []⟩ ⟨"https://x", "u", none, none, JiraServerLabel.cloud⟩ "tok" "boom"
    rfl (by decide) rfl
/-! ### C4: request coalescing in the Project Status Store -/

theorem ensureStep_joins (s : ProjectStatusStore.CoalesceState) (ticket : Nat)
    (hc : s.cached = none) (hp : s.pendingTicket = some ticket) :
    ProjectStatusStore.ensureStep s = (s, ProjectStatusStore.EnsureResult.joined ticket) := by
  unfold ProjectStatusStore.ensureStep
  rw [hc, hp]

theorem runEnsures_joined (n : Nat) (s : ProjectStatusStore.CoalesceState) (ticket : Nat)
    (hc : s.cached = none) (hp : s.pendingTicket = some ticket) :
    ProjectStatusStore.runEnsures n s =
      (s, List.replicate n (ProjectStatusStore.EnsureResult.joined ticket)) := by
  induction n with
  | zero => rfl
  | succ m ih =>
      unfold ProjectStatusStore.runEnsures
      rw [ensureStep_joins s ticket hc hp]
      simp [ih, List.replicate_succ]

theorem coalesceStep_inv (s : ProjectStatusStore.CoalesceState)
    (e : ProjectStatusStore.CoalesceEvent) (h : ProjectStatusStore.CoalesceInv s) :
    ProjectStatusStore.CoalesceInv (ProjectStatusStore.coalesceStep s e) := by
  obtain ⟨hle, hzero⟩ := h
  cases e with
  | ensureCall =>
      show ProjectStatusStore.CoalesceInv (ProjectStatusStore.ensureStep s).1
      unfold ProjectStatusStore.ensureStep
      cases hc : s.cached with
      | some entry => exact ⟨hle, hzero⟩
      | none =>
          cases hp : s.pendingTicket with
          | some t => exact ⟨hle, hzero⟩
          | none =>
              refine ⟨?_, ?_⟩
              · simp [hzero hp]
              · intro habs
                simp at habs
  | settle outcome =>
      show ProjectStatusStore.CoalesceInv (ProjectStatusStore.settleStep outcome s)
      unfold ProjectStatusStore.settleStep
      cases hp : s.pendingTicket with
      | none => exact ⟨hle, hzero⟩
      | some t => exact ⟨by simp; omega, fun _ => by simp; omega⟩

theorem statesAlong_inv (evs : List ProjectStatusStore.CoalesceEvent)
    (s : ProjectStatusStore.CoalesceState) (h : ProjectStatusStore.CoalesceInv s) :
    ∀ s' ∈ ProjectStatusStore.statesAlong evs s, ProjectStatusStore.CoalesceInv s' := by
  induction evs generalizing s with
  | nil =>
      intro s' hs'
      unfold ProjectStatusStore.statesAlong at hs'
      simp at hs'
      subst hs'
      exact h
  | cons e rest ih =>
      intro s' hs'
      unfold ProjectStatusStore.statesAlong at hs'
      rcases List.mem_cons.mp hs' with rfl | hmem
      · exact h
      · exact ih (ProjectStatusStore.coalesceStep s e) (coalesceStep_inv s e h) s' hmem

/-- Claim C4: starting from a state with no cache entry and no in-flight
promise, `n + 1` concurrent `ensure` calls start exactly one fetch task
and every caller joins the same promise; and along any event sequence
from a quiescent state, at most one fetch is outstanding at any instant. -/
theorem C4_request_coalescing :
    (∀ (s : ProjectStatusStore.CoalesceState) (n : Nat),
        s.cached = none → s.pendingTicket = none →
        (ProjectStatusStore.runEnsures (n + 1) s).1.fetchCount = s.fetchCount + 1 ∧
          ∀ r ∈ (ProjectStatusStore.runEnsures (n + 1) s).2,
            r = ProjectStatusStore.EnsureResult.joined s.nextTicket) ∧
      (∀ (evs : List ProjectStatusStore.CoalesceEvent)
          (s : ProjectStatusStore.CoalesceState),
          s.liveFetches = 0 → s.pendingTicket = none →
          ∀ s' ∈ ProjectStatusStore.statesAlong evs s, s'.liveFetches ≤ 1) := by
  constructor
  · intro s n hc hp
    have hstep : ProjectStatusStore.ensureStep s =
        ({ cached := s.cached
           pendingTicket := some s.nextTicket
           nextTicket := s.nextTicket + 1
           fetchCount := s.fetchCount + 1
           liveFetches := s.liveFetches + 1 },
          ProjectStatusStore.EnsureResult.joined s.nextTicket) := by
      unfold ProjectStatusStore.ensureStep
      rw [hc, hp]
    have hrun := runEnsures_joined n
      ⟨s.cached, some s.nextTicket, s.nextTicket + 1, s.fetchCount + 1, s.liveFetches + 1⟩
      s.nextTicket hc rfl
    unfold ProjectStatusStore.runEnsures
    rw [hstep]
    simp only [hrun]
    refine ⟨trivial, ?_⟩
    intro r hr
    simp only [List.mem_cons] at hr
    rcases hr with rfl | hmem
    · rfl
    · exact List.eq_of_mem_replicate hmem
  · intro evs s hlive hp s' hs'
    exact (statesAlong_inv evs s ⟨by omega, fun _ => hlive⟩ s' hs').1

/-- Witness for `C4_request_coalescing`: three concurrent `ensure` calls
from the empty state start one fetch and all join ticket 0; a concrete
event sequence never has two outstanding fetches. -/
theorem C4_request_coalescing_witness :
    ((ProjectStatusStore.runEnsures (2 + 1)
          ⟨none, none, 0, 0, 0⟩).1.fetchCount = 0 + 1 ∧
        ∀ r ∈ (ProjectStatusStore.runEnsures (2 + 1) ⟨none, none, 0, 0, 0⟩).2,
          r = ProjectStatusStore.EnsureResult.joined 0) ∧
      ∀ s' ∈ ProjectStatusStore.statesAlong
          [ProjectStatusStore.CoalesceEvent.ensureCall,
            ProjectStatusStore.CoalesceEvent.ensureCall,
            ProjectStatusStore.CoalesceEvent.settle none,
            ProjectStatusStore.CoalesceEvent.ensureCall]
          ⟨none, none, 0, 0, 0⟩, s'.liveFetches ≤ 1 :=
  ⟨C4_request_coalescing.1 ⟨none, none, 0, 0, 0⟩ 2 rfl rfl,
    C4_request_coalescing.2
      [ProjectStatusStore.CoalesceEvent.ensureCall,
        ProjectStatusStore.CoalesceEvent.ensureCall,
        ProjectStatusStore.CoalesceEvent.settle none,
        ProjectStatusStore.CoalesceEvent.ensureCall]
      ⟨none, none, 0, 0, 0⟩ rfl rfl⟩

/-! ### C2, C3: prefetch dedupe behavior -/

theorem prefetchStatusSearch_issued
    (oracle : ProjectTransitionPrefetcher.StatusOracle) (pk itid ck : String)
    (s : ProjectTransitionPrefetcher.WarmupState) :
    (ProjectTransitionPrefetcher.prefetchStatusSearch oracle pk itid ck s).2 = true := by
  unfold ProjectTransitionPrefetcher.prefetchStatusSearch
  cases oracle.representativeIssue with
  | none => rfl
  | some issue =>
      cases oracle.transitionsResult with
      | error e => rfl
      | ok transitions =>
          by_cases h : 0 < transitions.length
          · simp [h]
          · simp [h]

theorem prefetchStatusSearch_keys
    (oracle : ProjectTransitionPrefetcher.StatusOracle) (pk itid ck : String)
    (s : ProjectTransitionPrefetcher.WarmupState) :
    (ProjectTransitionPrefetcher.prefetchStatusSearch oracle pk itid ck s).1.prefetchedKeys =
        s.prefetchedKeys ∨
      (ProjectTransitionPrefetcher.prefetchStatusSearch oracle pk itid ck s).1.prefetchedKeys =
        ck :: s.prefetchedKeys := by
  unfold ProjectTransitionPrefetcher.prefetchStatusSearch
  cases oracle.representativeIssue with
  | none => left; rfl
  | some issue =>
      cases oracle.transitionsResult with
      | error e => left; rfl
      | ok transitions =>
          by_cases h : 0 < transitions.length
          · right; simp [h]
          · left; simp [h]

theorem prefetchStatus_marked_noop
    (oracle : ProjectTransitionPrefetcher.StatusOracle) (pk itid : String)
    (status : Option IssueStatusOption) (s : ProjectTransitionPrefetcher.WarmupState)
    (statusName : String)
    (hname : strTruthy (status.map (fun st0 => jsTrim st0.name)) = some statusName)
    (hmem : ProjectTransitionPrefetcher.buildPrefetchKey ⟨pk, itid, statusName⟩ ∈
      s.prefetchedKeys) :
    ProjectTransitionPrefetcher.prefetchStatus oracle pk itid status s = (s, false) := by
  unfold ProjectTransitionPrefetcher.prefetchStatus
  rw [hname]
  simp [hmem]

theorem prefetchStatus_keys_mono
    (oracle : ProjectTransitionPrefetcher.StatusOracle) (pk itid : String)
    (status : Option IssueStatusOption) (s : ProjectTransitionPrefetcher.WarmupState)
    (k : String) (hk : k ∈ s.prefetchedKeys) :
    k ∈ (ProjectTransitionPrefetcher.prefetchStatus oracle pk itid status s).1.prefetchedKeys := by
  unfold ProjectTransitionPrefetcher.prefetchStatus
  cases hn : strTruthy (status.map (fun st0 => jsTrim st0.name)) with
  | none => exact hk
  | some statusName =>
      by_cases hmem : ProjectTransitionPrefetcher.buildPrefetchKey ⟨pk, itid, statusName⟩ ∈
          s.prefetchedKeys
      · simp [hmem, hk]
      · simp only [if_neg hmem]
        cases hget : IssueTransitionStore.get s.transitionStore
            ⟨some pk, some itid, some statusName⟩ with
        | some existing =>
            by_cases hlen : 0 < existing.length
            · simp [hlen, List.mem_cons, hk]
            · simp only [if_neg hlen]
              rcases prefetchStatusSearch_keys oracle pk itid _ s with h | h <;>
                rw [h] <;> simp [hk]
        | none =>
            rcases prefetchStatusSearch_keys oracle pk itid _ s with h | h <;>
              rw [h] <;> simp [hk]

theorem prefetchStatus_search_independent
    (oracle oracle' : ProjectTransitionPrefetcher.StatusOracle) (pk itid : String)
    (status : Option IssueStatusOption) (s : ProjectTransitionPrefetcher.WarmupState) :
    (ProjectTransitionPrefetcher.prefetchStatus oracle pk itid status s).2 =
      (ProjectTransitionPrefetcher.prefetchStatus oracle' pk itid status s).2 := by
  unfold ProjectTransitionPrefetcher.prefetchStatus
  cases hn : strTruthy (status.map (fun st0 => jsTrim st0.name)) with
  | none => rfl
  | some statusName =>
      by_cases hmem : ProjectTransitionPrefetcher.buildPrefetchKey ⟨pk, itid, statusName⟩ ∈
          s.prefetchedKeys
      · simp [hmem]
      · simp only [if_neg hmem]
        cases hget : IssueTransitionStore.get s.transitionStore
            ⟨some pk, some itid, some statusName⟩ with
        | some existing =>
            by_cases hlen : 0 < existing.length
            · simp [hlen]
            · simp only [if_neg hlen]
              rw [prefetchStatusSearch_issued, prefetchStatusSearch_issued]
        | none => rw [prefetchStatusSearch_issued, prefetchStatusSearch_issued]

theorem prefetchStatusSearch_no_issue
    (oracle : ProjectTransitionPrefetcher.StatusOracle) (pk itid ck : String)
    (s : ProjectTransitionPrefetcher.WarmupState)
    (h : oracle.representativeIssue = none) :
    ProjectTransitionPrefetcher.prefetchStatusSearch oracle pk itid ck s = (s, true) := by
  unfold ProjectTransitionPrefetcher.prefetchStatusSearch
  rw [h]

theorem prefetchStatusSearch_fetch_error
    (oracle : ProjectTransitionPrefetcher.StatusOracle) (pk itid ck : String)
    (s : ProjectTransitionPrefetcher.WarmupState) (issue : JiraIssue) (e : Unit)
    (h1 : oracle.representativeIssue = some issue)
    (h2 : oracle.transitionsResult = Except.error e) :
    ProjectTransitionPrefetcher.prefetchStatusSearch oracle pk itid ck s = (s, true) := by
  unfold ProjectTransitionPrefetcher.prefetchStatusSearch
  rw [h1, h2]

theorem prefetchStatusSearch_stores
    (oracle : ProjectTransitionPrefetcher.StatusOracle) (pk itid ck : String)
    (s : ProjectTransitionPrefetcher.WarmupState) (issue : JiraIssue)
    (transitions : List IssueStatusOption)
    (h1 : oracle.representativeIssue = some issue)
    (h2 : oracle.transitionsResult = Except.ok transitions)
    (h3 : 0 < transitions.length) :
    ProjectTransitionPrefetcher.prefetchStatusSearch oracle pk itid ck s =
      ({ prefetchedKeys := ck :: s.prefetchedKeys
         transitionStore :=
           IssueTransitionStore.remember s.transitionStore
             ⟨some pk, some itid, some issue.statusName⟩ (some transitions) }, true) := by
  unfold ProjectTransitionPrefetcher.prefetchStatusSearch
  rw [h1, h2]
  simp [h3]

/-- Claim C3: a single-status warm-up leaves the triple unattempted when
the representative-issue search finds nothing or the transitions fetch
throws (so a later pass retries it), and marks a triple attempted only on
finding an existing non-empty cache entry or after a remember of a
non-empty fetched transition list. -/
theorem C3_mark_only_on_success :
    (∀ (oracle oracle' : ProjectTransitionPrefetcher.StatusOracle) (pk itid : String)
        (status : Option IssueStatusOption) (s : ProjectTransitionPrefetcher.WarmupState),
        oracle.representativeIssue = none →
        (ProjectTransitionPrefetcher.prefetchStatus oracle pk itid status s).2 = true →
        (ProjectTransitionPrefetcher.prefetchStatus oracle pk itid status s).1 = s ∧
          (ProjectTransitionPrefetcher.prefetchStatus oracle' pk itid status
              (ProjectTransitionPrefetcher.prefetchStatus oracle pk itid status s).1).2 =
            true) ∧
      (∀ (oracle : ProjectTransitionPrefetcher.StatusOracle) (pk itid : String)
          (status : Option IssueStatusOption) (s : ProjectTransitionPrefetcher.WarmupState)
          (issue : JiraIssue) (e : Unit),
          oracle.representativeIssue = some issue →
          oracle.transitionsResult = Except.error e →
          (ProjectTransitionPrefetcher.prefetchStatus oracle pk itid status s).2 = true →
          (ProjectTransitionPrefetcher.prefetchStatus oracle pk itid status s).1 = s) ∧
      (∀ (oracle : ProjectTransitionPrefetcher.StatusOracle) (pk itid : String)
          (status : Option IssueStatusOption) (s : ProjectTransitionPrefetcher.WarmupState)
          (k : String),
          k ∉ s.prefetchedKeys →
          k ∈ (ProjectTransitionPrefetcher.prefetchStatus oracle pk itid status
              s).1.prefetchedKeys →
          (∃ statusName existing,
              strTruthy (status.map (fun st0 => jsTrim st0.name)) = some statusName ∧
                k = ProjectTransitionPrefetcher.buildPrefetchKey ⟨pk, itid, statusName⟩ ∧
                IssueTransitionStore.get s.transitionStore
                    ⟨some pk, some itid, some statusName⟩ = some existing ∧
                0 < existing.length ∧
                (ProjectTransitionPrefetcher.prefetchStatus oracle pk itid status
                    s).1.transitionStore = s.transitionStore) ∨
            (∃ statusName issue transitions,
              strTruthy (status.map (fun st0 => jsTrim st0.name)) = some statusName ∧
                k = ProjectTransitionPrefetcher.buildPrefetchKey ⟨pk, itid, statusName⟩ ∧
                oracle.representativeIssue = some issue ∧
                oracle.transitionsResult = Except.ok transitions ∧
                0 < transitions.length ∧
                (ProjectTransitionPrefetcher.prefetchStatus oracle pk itid status
                    s).1.transitionStore =
                  IssueTransitionStore.remember s.transitionStore
                    ⟨some pk, some itid, some issue.statusName⟩ (some transitions))) := by
  refine ⟨?_, ?_, ?_⟩
  · intro oracle oracle' pk itid status s hrep h2
    refine ⟨?_, ?_⟩
    · revert h2
      unfold ProjectTransitionPrefetcher.prefetchStatus
      cases hn : strTruthy (status.map (fun st0 => jsTrim st0.name)) with
      | none => intro h2; simp at h2
      | some statusName =>
          by_cases hmem : ProjectTransitionPrefetcher.buildPrefetchKey
              ⟨pk, itid, statusName⟩ ∈ s.prefetchedKeys
          · simp [hmem]
          · simp only [if_neg hmem]
            cases hget : IssueTransitionStore.get s.transitionStore
                ⟨some pk, some itid, some statusName⟩ with
            | some existing =>
                by_cases hlen : 0 < existing.length
                · simp [hlen]
                · simp only [if_neg hlen]
                  rw [prefetchStatusSearch_no_issue oracle pk itid _ s hrep]
                  intro _
                  rfl
            | none =>
                rw [prefetchStatusSearch_no_issue oracle pk itid _ s hrep]
                intro _
                rfl
    · have hfix : (ProjectTransitionPrefetcher.prefetchStatus oracle pk itid status s).1 = s := by
        revert h2
        unfold ProjectTransitionPrefetcher.prefetchStatus
        cases hn : strTruthy (status.map (fun st0 => jsTrim st0.name)) with
        | none => intro h2; simp at h2
        | some statusName =>
            by_cases hmem : ProjectTransitionPrefetcher.buildPrefetchKey
                ⟨pk, itid, statusName⟩ ∈ s.prefetchedKeys
            · simp [hmem]
            · simp only [if_neg hmem]
              cases hget : IssueTransitionStore.get s.transitionStore
                  ⟨some pk, some itid, some statusName⟩ with
              | some existing =>
                  by_cases hlen : 0 < existing.length
                  · simp [hlen]
                  · simp only [if_neg hlen]
                    rw [prefetchStatusSearch_no_issue oracle pk itid _ s hrep]
                    intro _
                    rfl
              | none =>
                  rw [prefetchStatusSearch_no_issue oracle pk itid _ s hrep]
                  intro _
                  rfl
      rw [hfix]
      rw [← prefetchStatus_search_independent oracle oracle' pk itid status s]
      exact h2
  · intro oracle pk itid status s issue e h1 h2 htrue
    revert htrue
    unfold ProjectTransitionPrefetcher.prefetchStatus
    cases hn : strTruthy (status.map (fun st0 => jsTrim st0.name)) with
    | none => intro htrue; simp at htrue
    | some statusName =>
        by_cases hmem : ProjectTransitionPrefetcher.buildPrefetchKey
            ⟨pk, itid, statusName⟩ ∈ s.prefetchedKeys
        · simp [hmem]
        · simp only [if_neg hmem]
          cases hget : IssueTransitionStore.get s.transitionStore
              ⟨some pk, some itid, some statusName⟩ with
          | some existing =>
              by_cases hlen : 0 < existing.length
              · simp [hlen]
              · simp only [if_neg hlen]
                rw [prefetchStatusSearch_fetch_error oracle pk itid _ s issue e h1 h2]
                intro _
                rfl
          | none =>
              rw [prefetchStatusSearch_fetch_error oracle pk itid _ s issue e h1 h2]
              intro _
              rfl
  · intro oracle pk itid status s k hnot hmem'
    revert hmem'
    unfold ProjectTransitionPrefetcher.prefetchStatus
    cases hn : strTruthy (status.map (fun st0 => jsTrim st0.name)) with
    | none => intro hmem'; exact absurd hmem' hnot
    | some statusName =>
        by_cases hmem : ProjectTransitionPrefetcher.buildPrefetchKey
            ⟨pk, itid, statusName⟩ ∈ s.prefetchedKeys
        · simp only [if_pos hmem]
          intro hmem'
          exact absurd hmem' hnot
        · simp only [if_neg hmem]
          cases hget : IssueTransitionStore.get s.transitionStore
              ⟨some pk, some itid, some statusName⟩ with
          | some existing =>
              by_cases hlen : 0 < existing.length
              · simp only [if_pos hlen]
                intro hmem'
                rcases List.mem_cons.mp hmem' with rfl | habs
                · refine Or.inl ⟨statusName, existing, ?_, ?_, ?_, ?_, ?_⟩ <;>
                    first
                      | rfl
                      | exact hlen
                      | trivial
                · exact absurd habs hnot
              · simp only [if_neg hlen]
                cases hrep : oracle.representativeIssue with
                | none =>
                    rw [prefetchStatusSearch_no_issue oracle pk itid _ s hrep]
                    intro hmem'
                    exact absurd hmem' hnot
                | some issue =>
                    cases hres : oracle.transitionsResult with
                    | error e =>
                        rw [prefetchStatusSearch_fetch_error oracle pk itid _ s issue e hrep
                          hres]
                        intro hmem'
                        exact absurd hmem' hnot
                    | ok transitions =>
                        by_cases hts : 0 < transitions.length
                        · rw [prefetchStatusSearch_stores oracle pk itid _ s issue transitions
                            hrep hres hts]
                          intro hmem'
                          rcases List.mem_cons.mp hmem' with rfl | habs
                          · refine Or.inr
                              ⟨statusName, issue, transitions, ?_, ?_, ?_, ?_, ?_, ?_⟩ <;>
                              first
                                | rfl
                                | exact hts
                          · exact absurd habs hnot
                        · have hempty : ProjectTransitionPrefetcher.prefetchStatusSearch oracle
                              pk itid (ProjectTransitionPrefetcher.buildPrefetchKey
                                ⟨pk, itid, statusName⟩) s = (s, true) := by
                            unfold ProjectTransitionPrefetcher.prefetchStatusSearch
                            rw [hrep, hres]
                            simp [hts]
                          rw [hempty]
                          intro hmem'
                          exact absurd hmem' hnot
          | none =>
              cases hrep : oracle.representativeIssue with
              | none =>
                  rw [prefetchStatusSearch_no_issue oracle pk itid _ s hrep]
                  intro hmem'
                  exact absurd hmem' hnot
              | some issue =>
                  cases hres : oracle.transitionsResult with
                  | error e =>
                      rw [prefetchStatusSearch_fetch_error oracle pk itid _ s issue e hrep hres]
                      intro hmem'
                      exact absurd hmem' hnot
                  | ok transitions =>
                      by_cases hts : 0 < transitions.length
                      · rw [prefetchStatusSearch_stores oracle pk itid _ s issue transitions
                          hrep hres hts]
                        intro hmem'
                        rcases List.mem_cons.mp hmem' with rfl | habs
                        · refine Or.inr
                            ⟨statusName, issue, transitions, ?_, ?_, ?_, ?_, ?_, ?_⟩ <;>
                            first
                              | rfl
                              | exact hts
                        · exact absurd habs hnot
                      · have hempty : ProjectTransitionPrefetcher.prefetchStatusSearch oracle
                            pk itid (ProjectTransitionPrefetcher.buildPrefetchKey
                              ⟨pk, itid, statusName⟩) s = (s, true) := by
                          unfold ProjectTransitionPrefetcher.prefetchStatusSearch
                          rw [hrep, hres]
                          simp [hts]
                        rw [hempty]
                        intro hmem'
                        exact absurd hmem' hnot

/-- Witness for `C3_mark_only_on_success`: a warm-up whose search finds no
issue leaves the empty warm-up state unchanged and a later pass searches
again. -/
theorem C3_mark_only_on_success_witness :
    (ProjectTransitionPrefetcher.prefetchStatus ⟨none, Except.ok []⟩ "abc" "10001"
          (some ⟨"1", "To Do", none⟩) ⟨[], []⟩).1 = ⟨[], []⟩ ∧
      (ProjectTransitionPrefetcher.prefetchStatus ⟨none, Except.ok []⟩ "abc" "10001"
          (some ⟨"1", "To Do", none⟩)
          (ProjectTransitionPrefetcher.prefetchStatus ⟨none, Except.ok []⟩ "abc" "10001"
            (some ⟨"1", "To Do", none⟩) ⟨[], []⟩).1).2 = true :=
  C3_mark_only_on_success.1 ⟨none, Except.ok []⟩ ⟨none, Except.ok []⟩ "abc" "10001"
    (some ⟨"1", "To Do", none⟩) ⟨[], []⟩ rfl (by decide)

/-! ### C2: at-most-one search per triple -/

/-- Claim C2 as stated is false at a concrete input: a warm-up pass whose
representative-issue search returns no result issues the search (second
component `true`), and a later pass for the same triple issues the search
again — the triple is not remembered in the attempted set after a failed
or empty search. -/
theorem C2_counterexample :
    (ProjectTransitionPrefetcher.prefetchStatus ⟨none, Except.ok []⟩ "abc" "10002"
          (some ⟨"2", "Done", none⟩) ⟨[], []⟩).2 = true ∧
      (ProjectTransitionPrefetcher.prefetchStatus ⟨none, Except.ok []⟩ "abc" "10002"
          (some ⟨"2", "Done", none⟩)
          (ProjectTransitionPrefetcher.prefetchStatus ⟨none, Except.ok []⟩ "abc" "10002"
            (some ⟨"2", "Done", none⟩) ⟨[], []⟩).1).2 = true := by
  decide

/-- Claim C2 (amended): the prefetcher issues a representative-issue
search for a triple at most once only after the triple has been marked
attempted (by a cache hit or a successful non-empty store): once the
triple's key is in the attempted set, a warm-up is a complete no-op and
issues no search; and the attempted set only grows, so the dedupe is
permanent for the process lifetime.  A triple whose search failed or
returned empty is not marked and is searched again by a later pass. -/
theorem C2_search_dedupe_after_mark :
    (∀ (oracle : ProjectTransitionPrefetcher.StatusOracle) (pk itid : String)
        (status : Option IssueStatusOption) (s : ProjectTransitionPrefetcher.WarmupState)
        (statusName : String),
        strTruthy (status.map (fun st0 => jsTrim st0.name)) = some statusName →
        ProjectTransitionPrefetcher.buildPrefetchKey ⟨pk, itid, statusName⟩ ∈
          s.prefetchedKeys →
        ProjectTransitionPrefetcher.prefetchStatus oracle pk itid status s = (s, false)) ∧
      (∀ (oracle : ProjectTransitionPrefetcher.StatusOracle) (pk itid : String)
          (status : Option IssueStatusOption) (s : ProjectTransitionPrefetcher.WarmupState)
          (k : String),
          k ∈ s.prefetchedKeys →
          k ∈ (ProjectTransitionPrefetcher.prefetchStatus oracle pk itid status
              s).1.prefetchedKeys) :=
  ⟨prefetchStatus_marked_noop, prefetchStatus_keys_mono⟩

/-- Witness for `C2_search_dedupe_after_mark`: with the triple key already
in the attempted set, the warm-up is a no-op and no search is issued. -/
theorem C2_search_dedupe_after_mark_witness :
    ProjectTransitionPrefetcher.prefetchStatus ⟨none, Except.ok []⟩ "abc" "10001"
        (some ⟨"1", "To Do", none⟩) ⟨["abc::10001::to do"], []⟩ =
      (⟨["abc::10001::to do"], []⟩, false) :=
  C2_search_dedupe_after_mark.1 ⟨none, Except.ok []⟩ "abc" "10001"
    (some ⟨"1", "To Do", none⟩) ⟨["abc::10001::to do"], []⟩ "To Do" (by decide) (by decide)

/-! ### C6: issue-type cache priming -/

theorem buildIssueTypeCacheKey_inj (base i1 i2 : String)
    (h : ProjectStatusStore.buildIssueTypeCacheKey base i1 =
      ProjectStatusStore.buildIssueTypeCacheKey base i2) : i1 = i2 := by
  unfold ProjectStatusStore.buildIssueTypeCacheKey at h
  have hd := congrArg String.data h
  simp only [String.data_append] at hd
  have h2 := List.append_cancel_left hd
  cases i1
  cases i2
  exact congrArg String.mk (by simpa using h2)

theorem primeIdentifier_preserve (itc : List (String × List IssueStatusOption))
    (cacheKey : String) (statuses : List IssueStatusOption) (k : String)
    (v : List IssueStatusOption) (h : mapGet itc k = some v) :
    mapGet (ProjectStatusStore.primeIdentifier itc cacheKey statuses) k = some v := by
  unfold ProjectStatusStore.primeIdentifier
  by_cases hck : (mapGet itc cacheKey).isSome
  · simp [hck, h]
  · have hne : k ≠ cacheKey := by
      intro heq
      subst heq
      rw [h] at hck
      exact hck rfl
    simp only [hck, if_false, Bool.false_eq_true]
    rw [mapGet_mapSet_ne itc cacheKey k statuses hne]
    exact h

theorem primeFold_preserve (npk : String) (statuses : List IssueStatusOption)
    (idents : List String) :
    ∀ (itc : List (String × List IssueStatusOption)) (k : String)
      (v : List IssueStatusOption), mapGet itc k = some v →
      mapGet
        (idents.foldl
          (fun acc identifier =>
            ProjectStatusStore.primeIdentifier acc
              (ProjectStatusStore.buildIssueTypeCacheKey npk identifier) statuses)
          itc) k = some v := by
  induction idents with
  | nil => intro itc k v h; exact h
  | cons i rest ih =>
      intro itc k v h
      simp only [List.foldl_cons]
      exact ih _ _ _ (primeIdentifier_preserve _ _ _ _ _ h)

theorem primeGroup_preserve (itc : List (String × List IssueStatusOption)) (npk : String)
    (group : ProjectIssueTypeStatuses) (k : String) (v : List IssueStatusOption)
    (h : mapGet itc k = some v) :
    mapGet (ProjectStatusStore.primeGroup itc npk group) k = some v := by
  unfold ProjectStatusStore.primeGroup
  exact primeFold_preserve npk group.statuses _ itc k v h

theorem primeGroups_preserve (npk : String) (groups : List ProjectIssueTypeStatuses) :
    ∀ (itc : List (String × List IssueStatusOption)) (k : String)
      (v : List IssueStatusOption), mapGet itc k = some v →
      mapGet
        (groups.foldl (fun acc group => ProjectStatusStore.primeGroup acc npk group) itc) k =
        some v := by
  induction groups with
  | nil => intro itc k v h; exact h
  | cons g rest ih =>
      intro itc k v h
      simp only [List.foldl_cons]
      exact ih _ _ _ (primeGroup_preserve _ _ _ _ _ h)

theorem primeFold_inserts (npk : String) (statuses : List IssueStatusOption)
    (idents : List String) :
    ∀ (itc : List (String × List IssueStatusOption)) (ident : String), ident ∈ idents →
      mapGet itc (ProjectStatusStore.buildIssueTypeCacheKey npk ident) = none →
      mapGet
        (idents.foldl
          (fun acc identifier =>
            ProjectStatusStore.primeIdentifier acc
              (ProjectStatusStore.buildIssueTypeCacheKey npk identifier) statuses)
          itc)
        (ProjectStatusStore.buildIssueTypeCacheKey npk ident) = some statuses := by
  induction idents with
  | nil => intro itc ident h; cases h
  | cons i rest ih =>
      intro itc ident hmem hnone
      simp only [List.foldl_cons]
      by_cases hi : i = ident
      · subst hi
        have hstep : ProjectStatusStore.primeIdentifier itc
            (ProjectStatusStore.buildIssueTypeCacheKey npk i) statuses =
            mapSet itc (ProjectStatusStore.buildIssueTypeCacheKey npk i) statuses := by
          unfold ProjectStatusStore.primeIdentifier
          simp [hnone]
        rw [hstep]
        exact primeFold_preserve npk statuses rest _ _ _ (mapGet_mapSet_self _ _ _)
      · have hmem' : ident ∈ rest := by
          rcases List.mem_cons.mp hmem with heq | h'
          · exact absurd heq.symm hi
          · exact h'
        apply ih _ ident hmem'
        unfold ProjectStatusStore.primeIdentifier
        by_cases hck : (mapGet itc (ProjectStatusStore.buildIssueTypeCacheKey npk i)).isSome
        · simp [hck, hnone]
        · simp only [hck, if_false, Bool.false_eq_true]
          rw [mapGet_mapSet_ne]
          · exact hnone
          · intro heq
            exact hi (buildIssueTypeCacheKey_inj npk _ _ heq).symm

theorem primeFold_untouched (npk : String) (statuses : List IssueStatusOption)
    (idents : List String) :
    ∀ (itc : List (String × List IssueStatusOption)) (ident : String),
      (∀ i ∈ idents, i ≠ ident) →
      mapGet
        (idents.foldl
          (fun acc identifier =>
            ProjectStatusStore.primeIdentifier acc
              (ProjectStatusStore.buildIssueTypeCacheKey npk identifier) statuses)
          itc)
        (ProjectStatusStore.buildIssueTypeCacheKey npk ident) =
        mapGet itc (ProjectStatusStore.buildIssueTypeCacheKey npk ident) := by
  induction idents with
  | nil => intro itc ident _; rfl
  | cons i rest ih =>
      intro itc ident hne
      simp only [List.foldl_cons]
      rw [ih _ ident (fun j hj => hne j (List.mem_cons_of_mem _ hj))]
      unfold ProjectStatusStore.primeIdentifier
      by_cases hck : (mapGet itc (ProjectStatusStore.buildIssueTypeCacheKey npk i)).isSome
      · simp [hck]
      · simp only [hck, if_false, Bool.false_eq_true]
        rw [mapGet_mapSet_ne]
        intro heq
        exact hne i (List.mem_cons_self _ _) (buildIssueTypeCacheKey_inj npk _ _ heq).symm

theorem primeGroup_inserts (itc : List (String × List IssueStatusOption)) (npk : String)
    (group : ProjectIssueTypeStatuses) (ident : String)
    (hmem : ident ∈ ProjectStatusStore.groupIdentifiers group.issueTypeId group.issueTypeName)
    (hnone : mapGet itc (ProjectStatusStore.buildIssueTypeCacheKey npk ident) = none) :
    mapGet (ProjectStatusStore.primeGroup itc npk group)
        (ProjectStatusStore.buildIssueTypeCacheKey npk ident) = some group.statuses := by
  unfold ProjectStatusStore.primeGroup
  exact primeFold_inserts npk group.statuses _ itc ident hmem hnone

theorem primeGroup_untouched (itc : List (String × List IssueStatusOption)) (npk : String)
    (group : ProjectIssueTypeStatuses) (ident : String)
    (hnot : ident ∉ ProjectStatusStore.groupIdentifiers group.issueTypeId group.issueTypeName) :
    mapGet (ProjectStatusStore.primeGroup itc npk group)
        (ProjectStatusStore.buildIssueTypeCacheKey npk ident) =
      mapGet itc (ProjectStatusStore.buildIssueTypeCacheKey npk ident) := by
  unfold ProjectStatusStore.primeGroup
  exact primeFold_untouched npk group.statuses _ itc ident
    (fun i hi heq => hnot (heq ▸ hi))

theorem primeGroups_lookup (npk : String) (groups : List ProjectIssueTypeStatuses) :
    ∀ (itc : List (String × List IssueStatusOption)) (g : ProjectIssueTypeStatuses)
      (ident : String),
      g ∈ groups →
      ident ∈ ProjectStatusStore.groupIdentifiers g.issueTypeId g.issueTypeName →
      (∀ g' ∈ groups,
        ∀ i ∈ ProjectStatusStore.groupIdentifiers g'.issueTypeId g'.issueTypeName,
          mapGet itc (ProjectStatusStore.buildIssueTypeCacheKey npk i) = none) →
      groups.Pairwise
        (fun g1 g2 =>
          ∀ i ∈ ProjectStatusStore.groupIdentifiers g1.issueTypeId g1.issueTypeName,
            i ∉ ProjectStatusStore.groupIdentifiers g2.issueTypeId g2.issueTypeName) →
      mapGet
          (groups.foldl (fun acc group => ProjectStatusStore.primeGroup acc npk group) itc)
          (ProjectStatusStore.buildIssueTypeCacheKey npk ident) = some g.statuses := by
  induction groups with
  | nil => intro itc g ident hg; cases hg
  | cons g0 rest ih =>
      intro itc g ident hg hid hfresh hpw
      simp only [List.foldl_cons]
      obtain ⟨hpw1, hpw2⟩ := List.pairwise_cons.mp hpw
      rcases List.mem_cons.mp hg with rfl | hg'
      · have h1 := primeGroup_inserts itc npk g ident hid
          (hfresh g (List.mem_cons_self _ _) ident hid)
        exact primeGroups_preserve npk rest _ _ _ h1
      · refine ih _ g ident hg' hid ?_ hpw2
        intro g' hg'' i hi
        by_cases hig0 : i ∈ ProjectStatusStore.groupIdentifiers g0.issueTypeId g0.issueTypeName
        · exact absurd hi (hpw1 g' hg'' i hig0)
        · rw [primeGroup_untouched itc npk g0 i hig0]
          exact hfresh g' (List.mem_cons_of_mem _ hg'') i hi

/-- Claim C6 as stated is false at a concrete input: two issue-type groups
sharing the issue-type name `"Task"` are primed first-write-wins into the
shared identifier namespace, so the lookup by name for the second group
returns the first group's status list, not the second group's. -/
theorem C6_counterexample :
    ProjectStatusStore.getIssueTypeStatuses
        ((ProjectStatusStore.fetchAndCache
            ⟨some ⟨"https://x", "u", none, none, JiraServerLabel.cloud⟩, some "tok",
              Except.ok
                ⟨[],
                  [⟨some "10001", some "Task", [⟨"1", "To Do", none⟩]⟩,
                    ⟨some "10002", some "Task", [⟨"2", "Done", none⟩]⟩]⟩⟩
            "ABC" ⟨[], [], []⟩).1)
        (some "ABC") (some ⟨none, some "Task"⟩) =
      some [⟨"1", "To Do", none⟩] := by
  decide

/-- Claim C6 (amended): after a successful fetch that primes a fresh
issue-type cache for the project, and provided no two issue-type groups
share a normalized identifier, every group carrying both a non-empty
`issueTypeId` and a non-empty `issueTypeName` can be looked up by either
identifier, each returning that group's status list (under collisions the
first-primed group's list wins instead); and the lookup tries the id
before the name, returning the id slot's hit when it is populated. -/
theorem C6_issue_type_priming :
    (∀ (itc0 : List (String × List IssueStatusOption)) (pk : String)
        (groups : List ProjectIssueTypeStatuses) (g : ProjectIssueTypeStatuses)
        (idn nmn : String)
        (cache0 : List (String × ProjectStatusStore.CachedProjectStatuses))
        (pending0 : List (String × Nat)),
        jsTrim pk = pk → pk ≠ "" →
        (∀ g' ∈ groups,
          ∀ i ∈ ProjectStatusStore.groupIdentifiers g'.issueTypeId g'.issueTypeName,
            mapGet itc0 (ProjectStatusStore.buildIssueTypeCacheKey (jsToLower pk) i) =
              none) →
        groups.Pairwise
          (fun g1 g2 =>
            ∀ i ∈ ProjectStatusStore.groupIdentifiers g1.issueTypeId g1.issueTypeName,
              i ∉ ProjectStatusStore.groupIdentifiers g2.issueTypeId g2.issueTypeName) →
        g ∈ groups →
        ProjectStatusStore.normalizeIdentifier g.issueTypeId = some idn →
        ProjectStatusStore.normalizeIdentifier g.issueTypeName = some nmn →
        ProjectStatusStore.getIssueTypeStatuses
            ⟨cache0, pending0, ProjectStatusStore.primeIssueTypeCache itc0 pk groups⟩
            (some pk) (some ⟨g.issueTypeId, none⟩) = some g.statuses ∧
          ProjectStatusStore.getIssueTypeStatuses
            ⟨cache0, pending0, ProjectStatusStore.primeIssueTypeCache itc0 pk groups⟩
            (some pk) (some ⟨none, g.issueTypeName⟩) = some g.statuses) ∧
      (∀ (st : ProjectStatusStore.StoreState) (projectKey : Option String) (npk : String)
          (criteria : ProjectStatusStore.IssueTypeCriteria) (idn : String)
          (v : List IssueStatusOption),
          ProjectStatusStore.normalizeKey projectKey = some npk →
          ProjectStatusStore.normalizeIdentifier criteria.issueTypeId = some idn →
          mapGet st.issueTypeCache
              (ProjectStatusStore.buildIssueTypeCacheKey (jsToLower npk) idn) = some v →
          ProjectStatusStore.getIssueTypeStatuses st projectKey (some criteria) = some v) := by
  constructor
  · intro itc0 pk groups g idn nmn cache0 pending0 hrtrim hpk0 hfresh hpw hg hid hnm
    have hnk : ProjectStatusStore.normalizeKey (some pk) = some pk := by
      unfold ProjectStatusStore.normalizeKey strTruthy
      simp [hrtrim, hpk0]
    have hidmem : idn ∈ ProjectStatusStore.groupIdentifiers g.issueTypeId g.issueTypeName := by
      unfold ProjectStatusStore.groupIdentifiers
      rw [hid, hnm]
      simp
    have hnmmem : nmn ∈ ProjectStatusStore.groupIdentifiers g.issueTypeId g.issueTypeName := by
      unfold ProjectStatusStore.groupIdentifiers
      rw [hid, hnm]
      simp
    have hbase1 := primeGroups_lookup (jsToLower pk) groups itc0 g idn hg hidmem hfresh hpw
    have hbase2 := primeGroups_lookup (jsToLower pk) groups itc0 g nmn hg hnmmem hfresh hpw
    constructor
    · unfold ProjectStatusStore.getIssueTypeStatuses
      rw [hnk]
      dsimp only
      unfold ProjectStatusStore.groupIdentifiers
      rw [hid]
      have hnone : ProjectStatusStore.normalizeIdentifier none = none := rfl
      rw [hnone]
      unfold ProjectStatusStore.primeIssueTypeCache at hbase1 ⊢
      simp [List.findSome?, hbase1]
    · unfold ProjectStatusStore.getIssueTypeStatuses
      rw [hnk]
      dsimp only
      unfold ProjectStatusStore.groupIdentifiers
      rw [hnm]
      have hnone : ProjectStatusStore.normalizeIdentifier none = none := rfl
      rw [hnone]
      unfold ProjectStatusStore.primeIssueTypeCache at hbase2 ⊢
      simp [List.findSome?, hbase2]
  · intro st projectKey npk criteria idn v hnk hid hgetid
    unfold ProjectStatusStore.getIssueTypeStatuses
    rw [hnk]
    dsimp only
    unfold ProjectStatusStore.groupIdentifiers
    rw [hid]
    cases hnm : ProjectStatusStore.normalizeIdentifier criteria.issueTypeName with
    | none => simp [List.findSome?, hgetid]
    | some nmn => simp [List.findSome?, hgetid]

/-- Witness for `C6_issue_type_priming`: a single group with id `"10001"`
and name `"Task"` primed into a fresh cache is found under both
identifiers. -/
theorem C6_issue_type_priming_witness :
    ProjectStatusStore.getIssueTypeStatuses
        ⟨[], [],
          ProjectStatusStore.primeIssueTypeCache [] "ABC"
            [⟨some "10001", some "Task", [⟨"1", "To Do", none⟩]⟩]⟩
        (some "ABC")
        (some ⟨(⟨some "10001", some "Task", [⟨"1", "To Do", none⟩]⟩ :
            ProjectIssueTypeStatuses).issueTypeId, none⟩) =
      some [⟨"1", "To Do", none⟩] ∧
      ProjectStatusStore.getIssueTypeStatuses
        ⟨[], [],
          ProjectStatusStore.primeIssueTypeCache [] "ABC"
            [⟨some "10001", some "Task", [⟨"1", "To Do", none⟩]⟩]⟩
        (some "ABC")
        (some ⟨none, (⟨some "10001", some "Task", [⟨"1", "To Do", none⟩]⟩ :
            ProjectIssueTypeStatuses).issueTypeName⟩) =
      some [⟨"1", "To Do", none⟩] :=
  C6_issue_type_priming.1 [] "ABC"
    [⟨some "10001", some "Task", [⟨"1", "To Do", none⟩]⟩]
    ⟨some "10001", some "Task", [⟨"1", "To Do", none⟩]⟩
    "10001" "task" [] [] (by decide) (by decide) (by decide) (by decide) (by decide)
    (by decide) (by decide)
